import Mathlib

/-!
Verification of the locale routing core of the `next-intl` repository:
routing configuration resolution, the pathname compiler, the prefix policy
engine, the locale negotiator and the navigation path builder
(`createSharedNavigationFns`).

The setup phase of `createSharedNavigationFns` and the `Link` component are
embedded from the source file that contains them.  The helpers it imports
(`receiveRoutingConfig`, `validateReceivedConfig`, `applyPathnamePrefix`,
`compileLocalizedPathname`, the middleware negotiator) are not part of the
available sources; these are modelled from the specification, as marked in
their doc comments.
-/

/-! ## Data model: pathname templates and parameters -/

/-- A segment of a canonical pathname template: a literal segment, a named
dynamic segment `[name]`, or a catch-all segment `[...name]`. -/
inductive Segment where
  | literal (s : String)
  | param (name : String)
  | catchAll (name : String)
deriving DecidableEq, Repr

/-- A pathname template is a sequence of segments. -/
abbrev Template := List Segment

/-- A parameter value: a single string (for `[name]`) or a list of strings
(for `[...name]`, joined by slashes on compilation). -/
inductive ParamValue where
  | single (s : String)
  | multi (ss : List String)
deriving DecidableEq, Repr

/-- Parameters supplied to pathname compilation, keyed by parameter name. -/
abbrev Params := List (String × ParamValue)

/-- First-match lookup of a parameter by name. -/
def lookupParam : Params → String → Option ParamValue
  | [], _ => none
  | (m, v) :: ps, n => if m = n then some v else lookupParam ps n

/-- The names of the dynamic (named and catch-all) parameters of a template,
in template order. -/
def dynNames : Template → List String
  | [] => []
  | .literal _ :: t => dynNames t
  | .param n :: t => n :: dynNames t
  | .catchAll n :: t => n :: dynNames t

/-- Renders a segment list as a pathname string (leading slash, segments
joined by slashes). -/
def renderPath (segs : List String) : String :=
  "/" ++ String.intercalate "/" segs

/-- Displays a template as its canonical pathname string. -/
def segString : Segment → String
  | .literal s => s
  | .param n => "[" ++ n ++ "]"
  | .catchAll n => "[..." ++ n ++ "]"

/-- The canonical pathname string of a template. -/
def renderTemplate (t : Template) : String :=
  "/" ++ String.intercalate "/" (t.map segString)

/-! ## Pathname compiler -/

/-- The error raised when pathname compilation finds a required parameter
without a supplied value. -/
inductive CompileError where
  | missingParameter (name : String)
deriving DecidableEq, Repr

/-- Modelled from the spec: the core of `compile` (§4.2, `compileLocalizedPathname`),
which is not among the available sources.  Each `[name]` occurrence is
replaced by the supplied single value and each `[...name]` occurrence by the
supplied list of values (one path segment per value; URL-segment encoding is
abstracted as the identity).  A required parameter with no supplied value of
the required shape fails with `CompileError.missingParameter`. -/
def compileSegs : Template → Params → Except CompileError (List String)
  | [], _ => .ok []
  | .literal s :: t, ps => (compileSegs t ps).map fun rest => s :: rest
  | .param n :: t, ps =>
    match lookupParam ps n with
    | some (.single v) => (compileSegs t ps).map fun rest => v :: rest
    | _ => .error (.missingParameter n)
  | .catchAll n :: t, ps =>
    match lookupParam ps n with
    | some (.multi vs) => (compileSegs t ps).map fun rest => vs ++ rest
    | _ => .error (.missingParameter n)

/-- Modelled from the spec: the inverse direction of the pathname compiler
(§4.2, `matchTemplate`), matching one template against an observed pathname's
segments, extracting parameter values.  A catch-all segment is only supported
in final position and captures at least one segment. -/
def matchSegs : Template → List String → Option Params
  | [], [] => some []
  | .catchAll n :: t, xs => if t = [] ∧ xs ≠ [] then some [(n, .multi xs)] else none
  | .literal s :: t, x :: xs => if x = s then matchSegs t xs else none
  | .param n :: t, x :: xs => (matchSegs t xs).map fun ps => (n, .single x) :: ps
  | _, _ => none

/-- The number of wildcard (non-literal) segments of a template. -/
def wildcardCount (t : Template) : Nat :=
  t.countP fun s => match s with | .literal _ => false | _ => true

/-- The length of the leading run of literal segments of a template. -/
def literalPrefixLen : Template → Nat
  | .literal _ :: t => literalPrefixLen t + 1
  | _ => 0

/-- Modelled from the spec: tie-breaking between matching templates prefers
the most specific one — fewest wildcard segments, then longest literal
prefix (§4.2). -/
def moreSpecific (a b : Template) : Bool :=
  wildcardCount a < wildcardCount b ∨
    (wildcardCount a = wildcardCount b ∧ literalPrefixLen b < literalPrefixLen a)

/-- One entry of the `pathnames` configuration: a canonical template plus
optional per-locale localized templates.  A locale absent from the mapping
uses the canonical template verbatim. -/
structure PathnameEntry where
  canonical : Template
  localized : List (String × Template)
deriving DecidableEq, Repr

/-- Per-locale template lookup. -/
def lookupTemplate : List (String × Template) → String → Option Template
  | [], _ => none
  | (l, t) :: rest, locale => if l = locale then some t else lookupTemplate rest locale

/-- The localized template of an entry for a locale, falling back to the
canonical template. -/
def localizedTemplate (e : PathnameEntry) (locale : String) : Template :=
  (lookupTemplate e.localized locale).getD e.canonical

/-- Modelled from the spec: `matchTemplate(externalPathname, locale)` (§4.2)
over a `pathnames` configuration — finds which canonical template produced
the observed pathname segments, extracting parameter values; ties are broken
by preferring the most specific matching template, in declaration order. -/
def pickBest (locale : String) :
    PathnameEntry × Params → List (PathnameEntry × Params) → PathnameEntry × Params
  | best, [] => best
  | best, c :: cs =>
    pickBest locale
      (if moreSpecific (localizedTemplate c.1 locale) (localizedTemplate best.1 locale)
        then c else best) cs

/-- See `pickBest`; returns the canonical template of the most specific
matching entry together with the extracted parameters. -/
def matchTemplateSegs (pathnames : List PathnameEntry) (locale : String)
    (xs : List String) : Option (Template × Params) :=
  match pathnames.filterMap
      (fun e => (matchSegs (localizedTemplate e locale) xs).map fun ps => (e, ps)) with
  | [] => none
  | m :: ms =>
    some ((pickBest locale m ms).1.canonical, (pickBest locale m ms).2)

/-! ## Routing configuration -/

/-- The three base locale prefix modes. -/
inductive PrefixMode where
  | always
  | asNeeded
  | never
deriving DecidableEq, Repr

/-- The locale prefix configuration: a base mode plus optional custom prefix
strings per locale (each custom prefix carries its leading slash). -/
structure LocalePrefixConfig where
  mode : PrefixMode
  prefixes : List (String × String)
deriving DecidableEq, Repr

/-- A domain configuration entry: host, its own default locale and the
locales permitted on it. -/
structure DomainConfig where
  domain : String
  defaultLocale : String
  locales : List String
deriving DecidableEq, Repr

/-- The canonical routing configuration after resolution (§3).  The locale
cookie is abstracted to its enabled flag; its attributes (name, max age,
same-site, path) do not affect the properties settled here. -/
structure RoutingConfig where
  locales : List String
  defaultLocale : String
  localePrefix : LocalePrefixConfig
  domains : Option (List DomainConfig)
  pathnames : List PathnameEntry
  localeCookie : Bool
  localeDetection : Bool
  alternateLinks : Bool
deriving DecidableEq, Repr

/-- Per-locale custom prefix lookup. -/
def lookupPrefix : List (String × String) → String → Option String
  | [], _ => none
  | (l, p) :: rest, locale => if l = locale then some p else lookupPrefix rest locale

/-- The prefix string for a locale: its custom prefix when declared, else
`/` followed by the locale identifier. -/
def localePrefixFor (cfg : RoutingConfig) (locale : String) : String :=
  (lookupPrefix cfg.localePrefix.prefixes locale).getD ("/" ++ locale)

/-- The prefix of a locale as a single path segment (the prefix string
without its leading slash). -/
def localePrefixSeg (cfg : RoutingConfig) (locale : String) : String :=
  (localePrefixFor cfg locale).drop 1

/-- Prepends a prefix to a pathname; the root pathname collapses to the bare
prefix. -/
def prefixPathname (pre pathname : String) : String :=
  pre ++ (if pathname = "/" then "" else pathname)

/-- The partial user-supplied routing configuration before resolution. -/
structure RoutingInput where
  locales : List String
  defaultLocale : String
  localePrefix : Option LocalePrefixConfig
  domains : Option (List DomainConfig)
  pathnames : List PathnameEntry
  localeCookie : Option Bool
  localeDetection : Option Bool
  alternateLinks : Option Bool
deriving DecidableEq, Repr

/-- The empty user configuration (used when no routing argument is given). -/
def emptyRoutingInput : RoutingInput :=
  ⟨[], "", none, none, [], none, none, none⟩

/-- Modelled from the spec: `receiveRoutingConfig` (§4.1, not among the
available sources) — normalizes the partial user configuration, filling
defaults: prefix mode `always`, cookie enabled, locale detection enabled,
alternate links enabled but disabled automatically when the prefix mode is
`never` (§3). -/
def receiveRoutingConfig (i : RoutingInput) : RoutingConfig :=
  let lp := i.localePrefix.getD ⟨.always, []⟩
  { locales := i.locales
    defaultLocale := i.defaultLocale
    localePrefix := lp
    domains := i.domains
    pathnames := i.pathnames
    localeCookie := i.localeCookie.getD true
    localeDetection := i.localeDetection.getD true
    alternateLinks := (i.alternateLinks.getD true) && !(lp.mode = PrefixMode.never : Bool) }

/-- A descriptive configuration error raised by validation. -/
inductive ConfigError where
  | emptyLocales
  | duplicateLocales
  | defaultLocaleNotInLocales
  | prefixCollision
  | duplicateDomainHosts
  | domainDefaultNotInDomainLocales
  | domainLocaleNotInLocales
  | inconsistentPathnameParams
deriving DecidableEq, Repr

/-- Whether one pathname entry uses the same parameter set across all of its
localized variants (§3). -/
def entryConsistent (e : PathnameEntry) : Bool :=
  e.localized.all fun lt =>
    (dynNames lt.2).all (fun n => (dynNames e.canonical).contains n) &&
      (dynNames e.canonical).all (fun n => (dynNames lt.2).contains n)

/-- Modelled from the spec: `validateReceivedConfig` (§3 invariants, §4.1,
not among the available sources) — checks the locale list, the default
locale membership, prefix uniqueness across locales, domain host uniqueness,
domain locale constraints and pathname parameter-set consistency, reporting
a descriptive configuration error. -/
def validateReceivedConfig (cfg : RoutingConfig) : Except ConfigError Unit :=
  if cfg.locales = [] then .error .emptyLocales
  else if ¬cfg.locales.Nodup then .error .duplicateLocales
  else if cfg.defaultLocale ∉ cfg.locales then .error .defaultLocaleNotInLocales
  else if ¬(cfg.locales.map fun l => localePrefixFor cfg l).Nodup then .error .prefixCollision
  else if ¬((cfg.domains.getD []).map DomainConfig.domain).Nodup then
    .error .duplicateDomainHosts
  else if ¬(cfg.domains.getD []).all (fun d => d.locales.contains d.defaultLocale) then
    .error .domainDefaultNotInDomainLocales
  else if ¬(cfg.domains.getD []).all (fun d => d.locales.all cfg.locales.contains) then
    .error .domainLocaleNotInLocales
  else if ¬cfg.pathnames.all entryConsistent then .error .inconsistentPathnameParams
  else .ok ()

/-- The §3 invariants of a canonical routing configuration, stated
independently of the validation code path. -/
def ConfigValid (cfg : RoutingConfig) : Prop :=
  cfg.locales ≠ [] ∧
  cfg.locales.Nodup ∧
  cfg.defaultLocale ∈ cfg.locales ∧
  (cfg.locales.map fun l => localePrefixFor cfg l).Nodup ∧
  ((cfg.domains.getD []).map DomainConfig.domain).Nodup ∧
  (∀ d ∈ cfg.domains.getD [], d.defaultLocale ∈ d.locales) ∧
  (∀ d ∈ cfg.domains.getD [], ∀ l ∈ d.locales, l ∈ cfg.locales) ∧
  (∀ e ∈ cfg.pathnames, entryConsistent e = true)

/-- From the source (`createSharedNavigationFns`, setup phase): the routing
configuration is received and then validated — but only when `NODE_ENV` is
not `production`. -/
def createSharedNavigationFnsSetup (nodeEnv : String) (routing : Option RoutingInput) :
    Except ConfigError RoutingConfig :=
  let config := receiveRoutingConfig (routing.getD emptyRoutingInput)
  if nodeEnv ≠ "production" then
    match validateReceivedConfig config with
    | .ok _ => .ok config
    | .error e => .error e
  else .ok config

/-! ## Prefix policy engine and navigation path builder -/

/-- A query value: a single value or an array (the key is repeated per
array element on serialization). -/
inductive QueryValue where
  | one (s : String)
  | many (ss : List String)
deriving DecidableEq, Repr

/-- Query parameters in input order. -/
abbrev Query := List (String × QueryValue)

/-- Modelled from the spec: query string serialization (§4.2) — stable key
ordering following input order, array values repeat the key; appended after
path compilation. -/
def serializeSearchParams (q : Query) : String :=
  "?" ++ String.intercalate "&"
    (q.flatMap fun kv =>
      match kv.2 with
      | .one s => [kv.1 ++ "=" ++ s]
      | .many ss => ss.map fun s => kv.1 ++ "=" ++ s)

/-- The serialized query string of an optional query (empty when absent). -/
def queryString : Option Query → String
  | none => ""
  | some q => serializeSearchParams q

/-- Modelled from the spec: `applyPathnamePrefix` (§4.3, §4.6, not among the
available sources) — decides whether the locale prefix must be present and
prepends it.  An explicit force argument overrides the decision; otherwise
`always` prefixes, `never` does not, and `as-needed` prefixes exactly the
non-default locales, where with `domains` configured the applicable default
is the matched domain's own default and an unknown domain is handled
conservatively by prefixing. -/
def applyPathnamePrefix (pathname locale : String) (cfg : RoutingConfig)
    (domain : Option String) (force : Option Bool) : String :=
  let shouldPrefix : Bool :=
    match force with
    | some b => b
    | none =>
      match cfg.localePrefix.mode with
      | .always => true
      | .never => false
      | .asNeeded =>
        match cfg.domains with
        | none => decide (locale ≠ cfg.defaultLocale)
        | some ds =>
          match domain with
          | some d =>
            match ds.find? (fun dc => dc.domain = d) with
            | some dc => decide (locale ≠ dc.defaultLocale)
            | none => true
          | none => true
  if shouldPrefix then prefixPathname (localePrefixFor cfg locale) pathname else pathname

/-- An href accepted by the navigation functions: a plain string or an
object carrying a pathname with optional params and query. -/
structure HrefObj where
  pathname : String
  params : Option Params
  query : Option Query
deriving DecidableEq, Repr

/-- See `HrefObj`. -/
inductive Href where
  | str (s : String)
  | obj (o : HrefObj)
deriving DecidableEq, Repr

/-- The pathname carried by an href. -/
def hrefPathname : Href → String
  | .str s => s
  | .obj o => o.pathname

/-- Modelled from the spec: `isLocalizableHref` (shared utils, not among the
available sources) — an href is localizable when it is a host-relative
absolute path; external URLs (scheme- or protocol-relative) and relative
hrefs are not localized. -/
def isLocalizableHref (href : Href) : Bool :=
  match (hrefPathname href).toList with
  | '/' :: '/' :: _ => false
  | '/' :: _ => true
  | _ => false

/-- Modelled from the spec: `compileLocalizedPathname` (§4.2, not among the
available sources) — looks up the entry whose canonical template matches the
requested pathname, compiles its localized template for the locale and
appends the serialized query string.  A pathname with no entry is used
verbatim (parameter substitution inside the verbatim fallback is not
modelled; the settled claims exercise configured entries only). -/
def compileLocalizedPathname (pathnames : List PathnameEntry) (locale name : String)
    (params : Params) (query : Option Query) : Except CompileError String :=
  match pathnames.find? (fun e => renderTemplate e.canonical = name) with
  | some e =>
    (compileSegs (localizedTemplate e locale) params).map fun segs =>
      renderPath segs ++ queryString query
  | none => .ok (name ++ queryString query)

/-- From the source (`getPathname` in `createSharedNavigationFns`), the part
before prefixing: without a `pathnames` configuration the href's pathname is
used directly (with the query serialized for object hrefs); with one, the
localized pathname is compiled. -/
def getPathnameBase (cfg : RoutingConfig) (locale : String) (href : Href) :
    Except CompileError String :=
  if cfg.pathnames.isEmpty then
    match href with
    | .str p => .ok p
    | .obj o => .ok (o.pathname ++ queryString o.query)
  else
    match href with
    | .str p => compileLocalizedPathname cfg.pathnames locale p [] none
    | .obj o => compileLocalizedPathname cfg.pathnames locale o.pathname (o.params.getD []) o.query

/-- From the source: `getPathname` — compiles the pathname and applies the
prefix policy. -/
def getPathname (cfg : RoutingConfig) (locale : String) (href : Href)
    (domain : Option String) (forcePrefix : Option Bool) : Except CompileError String :=
  (getPathnameBase cfg locale href).map fun p =>
    applyPathnamePrefix p locale cfg domain forcePrefix

/-- From the source: `forcePrefixSsr` — truthy exactly when the `as-needed`
prefix mode is combined with `domains`; in that case a prefix is always
added when rendering ahead of time, since the applicable default locale
depends on the current host. -/
def forcePrefixSsr (cfg : RoutingConfig) : Bool :=
  cfg.localePrefix.mode = PrefixMode.asNeeded && cfg.domains.isSome

/-- From the source: the third argument `Link` passes to `getPathname`
(`locale != null || forcePrefixSsr || undefined`). -/
def linkForceArg (cfg : RoutingConfig) (locale : Option String) : Option Bool :=
  if locale.isSome then some true
  else if forcePrefixSsr cfg then some true
  else none

/-- From the source: the href `Link` passes to `getPathname` for the main
pathname — without a `pathnames` configuration the bare pathname string,
with one an object carrying pathname and params (the query stays on the
original href object). -/
def linkHrefArg (cfg : RoutingConfig) (href : Href) : Href :=
  if cfg.pathnames.isEmpty then .str (hrefPathname href)
  else
    match href with
    | .str p => .str p
    | .obj o => .obj ⟨o.pathname, o.params, none⟩

/-- From the source: the href `Link` passes to `getPathname` for the
`unprefixed` client-side recomputation — pathname and query, plus params
when a `pathnames` configuration exists. -/
def unprefixedHrefArg (cfg : RoutingConfig) (href : Href) : Href :=
  match href with
  | .str p => .obj ⟨p, none, none⟩
  | .obj o =>
    if cfg.pathnames.isEmpty then .obj ⟨o.pathname, none, o.query⟩
    else .obj ⟨o.pathname, o.params, o.query⟩

/-- From the source: the domain-to-default-locale mapping `Link` provides to
the client side inside the `unprefixed` prop. -/
def domainsDefaultMap (cfg : RoutingConfig) : List (String × String) :=
  (cfg.domains.getD []).map fun d => (d.domain, d.defaultLocale)

/-- Equality of `Except` results is decidable componentwise. -/
instance {ε α : Type} [DecidableEq ε] [DecidableEq α] : DecidableEq (Except ε α) := fun
  | .ok a, .ok b =>
    if h : a = b then .isTrue (by rw [h])
    else .isFalse (by intro hc; cases hc; exact h rfl)
  | .ok _, .error _ => .isFalse (by intro h; cases h)
  | .error _, .ok _ => .isFalse (by intro h; cases h)
  | .error e, .error f =>
    if h : e = f then .isTrue (by rw [h])
    else .isFalse (by intro hc; cases hc; exact h rfl)

/-- The parts of a rendered `Link` that the settled claims are about: the
final pathname and the optional `unprefixed` prop (domain mapping plus
unprefixed pathname). -/
structure LinkRendered where
  finalPathname : Except CompileError String
  unprefixed : Option (List (String × String) × Except CompileError String)
deriving DecidableEq, Repr

/-- From the source: the `Link` component of `createSharedNavigationFns`.
A localizable href is passed through `getPathname` with the current or
explicit locale and the force argument; a non-localizable href is used
unchanged.  The `unprefixed` prop is provided exactly in the
`forcePrefixSsr` case for localizable hrefs. -/
def renderLink (cfg : RoutingConfig) (curLocale : String) (href : Href)
    (locale : Option String) : LinkRendered :=
  let isLoc := isLocalizableHref href
  let finalPathname :=
    if isLoc then
      getPathname cfg (locale.getD curLocale) (linkHrefArg cfg href) none
        (linkForceArg cfg locale)
    else .ok (hrefPathname href)
  let unprefixed :=
    if forcePrefixSsr cfg && isLoc then
      some (domainsDefaultMap cfg,
        getPathname cfg curLocale (unprefixedHrefArg cfg href) none (some false))
    else none
  ⟨finalPathname, unprefixed⟩

/-! ## Locale negotiator and alternate links -/

/-- The action the negotiator decides on for a request. -/
inductive NegAction where
  | pass
  | redirect (target : String)
  | rewrite (internal : String)
deriving DecidableEq, Repr

/-- The per-request negotiation result: resolved locale, action and the
optional cookie write. -/
structure NegotiationResult where
  locale : String
  action : NegAction
  setCookie : Option String
deriving DecidableEq, Repr

/-- The request signals the negotiator consumes: the pathname (as segments),
the host, the locale cookie value and the `Accept-Language` preferences
(already ordered by descending quality). -/
structure NegRequest where
  segments : List String
  host : Option String
  cookie : Option String
  acceptLanguage : List String
deriving DecidableEq, Repr

/-- Modelled from the spec: the Domain Matcher (§4.4, not among the
available sources) — first entry whose host equals the request host
(case handling abstracted); no match falls back to the global default. -/
def matchDomain (cfg : RoutingConfig) (host : String) : Option DomainConfig :=
  (cfg.domains.getD []).find? fun d => d.domain = host

/-- A recognized locale prefix at the head of the pathname, yielding the
locale it encodes and the remaining segments. -/
def pathLocale (cfg : RoutingConfig) (segs : List String) : Option (String × List String) :=
  match segs with
  | [] => none
  | s :: rest => (cfg.locales.find? fun l => localePrefixSeg cfg l = s).map fun l => (l, rest)

/-- Modelled from the spec: the Locale Negotiator (§4.5, not among the
available sources), specialised to configurations without localized
`pathnames` (whose `Rewrite` translation branch is outside the claims
settled here).  Candidate precedence: recognized path prefix (unless the
mode is `never`), restricted by a matched domain's permitted locales; then
cookie and header (only with locale detection enabled, silently skipping
unsupported values); then the applicable default.  The action follows the
prefix found in the path: a missing required prefix redirects to the
prefixed path, a superfluous prefix for the applicable default locale under
`as-needed` redirects to the unprefixed path.  A cookie write is produced
when the cookie is enabled and does not already hold the resolved locale. -/
def negDomain (cfg : RoutingConfig) (req : NegRequest) : Option DomainConfig :=
  req.host.bind fun h => matchDomain cfg h

/-- The candidate locale set: the matched domain's permitted locales, else
all supported locales.  See `negotiate`. -/
def negCandidates (cfg : RoutingConfig) (req : NegRequest) : List String :=
  match negDomain cfg req with
  | some dc => dc.locales
  | none => cfg.locales

/-- The applicable default locale: the matched domain's own default, else
the global default.  See `negotiate`. -/
def negDefault (cfg : RoutingConfig) (req : NegRequest) : String :=
  ((negDomain cfg req).map DomainConfig.defaultLocale).getD cfg.defaultLocale

/-- The recognized locale prefix of the request pathname, unless the prefix
mode is `never`.  See `negotiate`. -/
def negPathInfo (cfg : RoutingConfig) (req : NegRequest) : Option (String × List String) :=
  if cfg.localePrefix.mode = PrefixMode.never then none else pathLocale cfg req.segments

/-- The resolved locale by precedence: path prefix, cookie, header,
applicable default.  See `negotiate`. -/
def resolvedLocale (cfg : RoutingConfig) (req : NegRequest) : String :=
  let pathCand := (negPathInfo cfg req).bind fun li =>
    if li.1 ∈ negCandidates cfg req then some li.1 else none
  let cookieCand :=
    if cfg.localeDetection then
      req.cookie.bind fun c => if c ∈ negCandidates cfg req then some c else none
    else none
  let headerCand :=
    if cfg.localeDetection then
      req.acceptLanguage.find? (fun l => l ∈ negCandidates cfg req)
    else none
  pathCand.getD (cookieCand.getD (headerCand.getD (negDefault cfg req)))

/-- The action derived from the prefix found in the path and the resolved
locale.  See `negotiate`. -/
def negActionOf (cfg : RoutingConfig) (req : NegRequest) : NegAction :=
  match cfg.localePrefix.mode with
  | .never => NegAction.pass
  | .always =>
    match negPathInfo cfg req with
    | some _ => NegAction.pass
    | none =>
      NegAction.redirect
        (renderPath (localePrefixSeg cfg (resolvedLocale cfg req) :: req.segments))
  | .asNeeded =>
    match negPathInfo cfg req with
    | some li =>
      if li.1 = negDefault cfg req then NegAction.redirect (renderPath li.2)
      else NegAction.pass
    | none =>
      if resolvedLocale cfg req = negDefault cfg req then NegAction.pass
      else
        NegAction.redirect
          (renderPath (localePrefixSeg cfg (resolvedLocale cfg req) :: req.segments))

/-- See the doc comment above: the full negotiation result. -/
def negotiate (cfg : RoutingConfig) (req : NegRequest) : NegotiationResult :=
  ⟨resolvedLocale cfg req, negActionOf cfg req,
    if cfg.localeCookie ∧ req.cookie ≠ some (resolvedLocale cfg req) then
      some (resolvedLocale cfg req)
    else none⟩

/-- One alternate-link entry: the `hreflang` value (a locale or `x-default`)
and the link target. -/
structure AlternateLink where
  hreflang : String
  href : String
deriving DecidableEq, Repr

/-- Modelled from the spec: alternate-link metadata (§4.5, not among the
available sources) — one entry per supported locale with the pathname
prefixed per that locale's policy, plus an `x-default` entry; the
`x-default` entry is emitted only for the site root under `always` mode and
omitted entirely under `never` mode, where no alternate links are emitted at
all. -/
def getAlternateLinks (cfg : RoutingConfig) (canonical : String) : List AlternateLink :=
  if cfg.localePrefix.mode = PrefixMode.never ∨ cfg.alternateLinks = false then []
  else
    (cfg.locales.map fun l => ⟨l, applyPathnamePrefix canonical l cfg none none⟩) ++
      (match cfg.localePrefix.mode with
        | .always => if canonical = "/" then [⟨"x-default", canonical⟩] else []
        | .asNeeded => [⟨"x-default", canonical⟩]
        | .never => [])

/-! ## Helper lemmas -/

theorem exceptMap_ok {ε α β : Type} (f : α → β) (a : α) :
    (Except.ok a : Except ε α).map f = .ok (f a) := rfl

theorem exceptMap_error {ε α β : Type} (f : α → β) (e : ε) :
    (Except.error e : Except ε α).map f = .error e := rfl

/-! ## C4: prefixing under as-needed mode without domains -/

/-- C4: under `as-needed` mode without domains, the compiled external
pathname for the default locale never carries a locale prefix (it equals the
compiled base pathname), and the compiled external pathname for every
non-default locale carries that locale's prefix. -/
theorem c4_as_needed_prefixing (cfg : RoutingConfig) (l base : String) (href : Href)
    (hm : cfg.localePrefix.mode = PrefixMode.asNeeded)
    (hd : cfg.domains = none)
    (hbase : getPathnameBase cfg l href = .ok base) :
    (l = cfg.defaultLocale → getPathname cfg l href none none = .ok base) ∧
    (l ≠ cfg.defaultLocale →
      getPathname cfg l href none none =
        .ok (prefixPathname (localePrefixFor cfg l) base)) := by
  constructor
  · intro h
    subst h
    simp [getPathname, hbase, exceptMap_ok, applyPathnamePrefix, hm, hd]
  · intro h
    simp [getPathname, hbase, exceptMap_ok, applyPathnamePrefix, hm, hd, h]

/-- Witness for `c4_as_needed_prefixing` at a concrete configuration. -/
theorem c4_as_needed_prefixing_witness :
    getPathname ⟨["en", "de"], "en", ⟨.asNeeded, []⟩, none, [], true, true, true⟩
      "en" (.str "/about") none none = .ok "/about" ∧
    getPathname ⟨["en", "de"], "en", ⟨.asNeeded, []⟩, none, [], true, true, true⟩
      "de" (.str "/about") none none = .ok "/de/about" := by
  constructor
  · exact (c4_as_needed_prefixing
      ⟨["en", "de"], "en", ⟨.asNeeded, []⟩, none, [], true, true, true⟩
      "en" "/about" (.str "/about") rfl rfl rfl).1 rfl
  · have h := (c4_as_needed_prefixing
      ⟨["en", "de"], "en", ⟨.asNeeded, []⟩, none, [], true, true, true⟩
      "de" "/about" (.str "/about") rfl rfl rfl).2 (by decide)
    simpa [prefixPathname, localePrefixFor, lookupPrefix] using h

/-! ## C9: an explicit locale prop forces the prefix -/

/-- C9: when `Link` receives an explicit `locale`, the final pathname is
computed with prefix forcing enabled, so the rendered href carries that
locale's prefix regardless of the prefix mode and of whether the locale is
the default. -/
theorem c9_explicit_locale_forces_prefix (cfg : RoutingConfig) (cur l base : String)
    (href : Href)
    (hloc : isLocalizableHref href = true)
    (hbase : getPathnameBase cfg l (linkHrefArg cfg href) = .ok base) :
    (renderLink cfg cur href (some l)).finalPathname =
      .ok (prefixPathname (localePrefixFor cfg l) base) := by
  simp [renderLink, hloc, linkForceArg, getPathname, hbase, exceptMap_ok,
    applyPathnamePrefix]

/-- Witness for `c9_explicit_locale_forces_prefix`: the default locale under
`as-needed` mode still gets its prefix when passed explicitly. -/
theorem c9_explicit_locale_forces_prefix_witness :
    (renderLink ⟨["en", "de"], "en", ⟨.asNeeded, []⟩, none, [], true, true, true⟩
        "de" (.str "/about") (some "en")).finalPathname = .ok "/en/about" := by
  have h := c9_explicit_locale_forces_prefix
    ⟨["en", "de"], "en", ⟨.asNeeded, []⟩, none, [], true, true, true⟩
    "de" "en" "/about" (.str "/about") (by decide) rfl
  simpa [prefixPathname, localePrefixFor, lookupPrefix] using h

/-! ## C10: non-localizable hrefs pass through unchanged -/

/-- C10: for an href that is not localizable, `Link` uses the href's
pathname unchanged — for every configuration, ambient locale and locale
prop, no compilation or prefixing is applied and no `unprefixed`
recomputation is exposed. -/
theorem c10_non_localizable_identity (cfg : RoutingConfig) (cur : String) (href : Href)
    (locale : Option String)
    (hloc : isLocalizableHref href = false) :
    (renderLink cfg cur href locale).finalPathname = .ok (hrefPathname href) ∧
    (renderLink cfg cur href locale).unprefixed = none := by
  simp [renderLink, hloc]

/-- Witness for `c10_non_localizable_identity` at an external URL. -/
theorem c10_non_localizable_identity_witness :
    (renderLink ⟨["en", "de"], "en", ⟨.asNeeded, []⟩, none, [], true, true, true⟩
        "de" (.str "https://example.com/about") none).finalPathname =
      .ok "https://example.com/about" :=
  (c10_non_localizable_identity _ "de" (.str "https://example.com/about") none
    (by decide)).1

/-! ## C2: two-phase prefix resolution under as-needed with domains -/

/-- C2: under `as-needed` mode combined with `domains`, a `Link` rendered
ahead of time always carries the current locale's prefix on its final
pathname, and exposes the client-side-only `unprefixed` recomputation: the
domain-to-default-locale mapping together with the unprefixed pathname.
Both phases are derived from the same compiled base pathname, so they denote
the same canonical path and differ only by the (possibly redundant)
prefix. -/
theorem c2_two_phase_prefixing (cfg : RoutingConfig) (cur base : String) (href : Href)
    (ds : List DomainConfig)
    (hm : cfg.localePrefix.mode = PrefixMode.asNeeded)
    (hd : cfg.domains = some ds)
    (hloc : isLocalizableHref href = true)
    (hbase1 : getPathnameBase cfg cur (linkHrefArg cfg href) = .ok base)
    (hbase2 : getPathnameBase cfg cur (unprefixedHrefArg cfg href) = .ok base) :
    (renderLink cfg cur href none).finalPathname =
      .ok (prefixPathname (localePrefixFor cfg cur) base) ∧
    (renderLink cfg cur href none).unprefixed =
      some (ds.map (fun d => (d.domain, d.defaultLocale)), .ok base) := by
  have hf : forcePrefixSsr cfg = true := by simp [forcePrefixSsr, hm, hd]
  constructor
  · simp [renderLink, hloc, linkForceArg, hf, getPathname, hbase1, exceptMap_ok,
      applyPathnamePrefix]
  · simp [renderLink, hloc, hf, getPathname, hbase2, exceptMap_ok,
      applyPathnamePrefix, domainsDefaultMap, hd]

/-- Witness for `c2_two_phase_prefixing` at a concrete two-domain
configuration. -/
theorem c2_two_phase_prefixing_witness :
    (renderLink
        ⟨["en", "de"], "en", ⟨.asNeeded, []⟩,
          some [⟨"example.de", "de", ["de"]⟩, ⟨"example.com", "en", ["en", "de"]⟩],
          [], true, true, true⟩
        "en" (.str "/about") none).finalPathname = .ok "/en/about" ∧
    (renderLink
        ⟨["en", "de"], "en", ⟨.asNeeded, []⟩,
          some [⟨"example.de", "de", ["de"]⟩, ⟨"example.com", "en", ["en", "de"]⟩],
          [], true, true, true⟩
        "en" (.str "/about") none).unprefixed =
      some ([("example.de", "de"), ("example.com", "en")], .ok "/about") := by
  have h := c2_two_phase_prefixing
    ⟨["en", "de"], "en", ⟨.asNeeded, []⟩,
      some [⟨"example.de", "de", ["de"]⟩, ⟨"example.com", "en", ["en", "de"]⟩],
      [], true, true, true⟩
    "en" "/about" (.str "/about")
    [⟨"example.de", "de", ["de"]⟩, ⟨"example.com", "en", ["en", "de"]⟩]
    rfl rfl (by decide) rfl rfl
  simpa [prefixPathname, localePrefixFor, lookupPrefix] using h

/-! ## C8: missing-parameter errors during compilation -/

/-- Whether the supplied parameters provide a value of the required shape
for one template segment. -/
def suppliedFor (ps : Params) : Segment → Prop
  | .literal _ => True
  | .param n => ∃ v, lookupParam ps n = some (.single v)
  | .catchAll n => ∃ vs, lookupParam ps n = some (.multi vs)

/-- C8: compilation fails with a `missingParameter` error exactly when some
named or catch-all parameter of the template has no supplied value; it never
silently produces a result in that case. -/
theorem c8_compile_missing_parameter (t : Template) (ps : Params) :
    (∃ n, compileSegs t ps = .error (.missingParameter n)) ↔
      ¬ ∀ seg ∈ t, suppliedFor ps seg := by
  induction t with
  | nil => simp [compileSegs]
  | cons seg t ih =>
    cases seg with
    | literal s =>
      simp only [compileSegs, List.mem_cons]
      constructor
      · rintro ⟨n, hn⟩ hall
        cases hc : compileSegs t ps with
        | ok v => rw [hc] at hn; exact absurd hn (by simp [exceptMap_ok])
        | error e =>
          refine ih.mp ?_ fun s hs => hall s (Or.inr hs)
          cases e with
          | missingParameter m => exact ⟨m, hc⟩
      · intro hall
        have : ¬ ∀ s ∈ t, suppliedFor ps s := by
          intro hrest
          exact hall fun s hs => hs.elim (fun h => h ▸ trivial) (hrest s)
        obtain ⟨n, hn⟩ := ih.mpr this
        exact ⟨n, by rw [hn]; rfl⟩
    | param n =>
      simp only [compileSegs, List.mem_cons]
      cases hl : lookupParam ps n with
      | none =>
        constructor
        · rintro - hall
          obtain ⟨v, hv⟩ := hall (.param n) (Or.inl rfl)
          rw [hl] at hv; cases hv
        · intro hall
          exact ⟨n, rfl⟩
      | some pv =>
        cases pv with
        | single v =>
          constructor
          · rintro ⟨m, hm⟩ hall
            cases hc : compileSegs t ps with
            | ok w => rw [hc] at hm; exact absurd hm (by simp [exceptMap_ok])
            | error e =>
              refine ih.mp ?_ fun s hs => hall s (Or.inr hs)
              cases e with
              | missingParameter m2 => exact ⟨m2, hc⟩
          · intro hall
            have : ¬ ∀ s ∈ t, suppliedFor ps s := by
              intro hrest
              refine hall fun s hs => hs.elim (fun h => ?_) (hrest s)
              subst h
              exact ⟨v, hl⟩
            obtain ⟨m, hm⟩ := ih.mpr this
            exact ⟨m, by rw [hm]; rfl⟩
        | multi vs =>
          constructor
          · rintro - hall
            obtain ⟨v, hv⟩ := hall (.param n) (Or.inl rfl)
            rw [hl] at hv; cases hv
          · intro hall
            exact ⟨n, rfl⟩
    | catchAll n =>
      simp only [compileSegs, List.mem_cons]
      cases hl : lookupParam ps n with
      | none =>
        constructor
        · rintro - hall
          obtain ⟨vs, hv⟩ := hall (.catchAll n) (Or.inl rfl)
          rw [hl] at hv; cases hv
        · intro hall
          exact ⟨n, rfl⟩
      | some pv =>
        cases pv with
        | multi vs =>
          constructor
          · rintro ⟨m, hm⟩ hall
            cases hc : compileSegs t ps with
            | ok w => rw [hc] at hm; exact absurd hm (by simp [exceptMap_ok])
            | error e =>
              refine ih.mp ?_ fun s hs => hall s (Or.inr hs)
              cases e with
              | missingParameter m2 => exact ⟨m2, hc⟩
          · intro hall
            have : ¬ ∀ s ∈ t, suppliedFor ps s := by
              intro hrest
              refine hall fun s hs => hs.elim (fun h => ?_) (hrest s)
              subst h
              exact ⟨vs, hl⟩
            obtain ⟨m, hm⟩ := ih.mpr this
            exact ⟨m, by rw [hm]; rfl⟩
        | single v =>
          constructor
          · rintro - hall
            obtain ⟨vs, hv⟩ := hall (.catchAll n) (Or.inl rfl)
            rw [hl] at hv; cases hv
          · intro hall
            exact ⟨n, rfl⟩

/-! ## C3: compile/match round trip -/

/-- Well-formedness of a parameter assignment `f` for a template: each named
segment gets a single value, a catch-all segment is last and gets a
non-empty list of values. -/
def wfFor : Template → (String → ParamValue) → Prop
  | [], _ => True
  | .literal _ :: t, f => wfFor t f
  | .param n :: t, f => (∃ v, f n = .single v) ∧ wfFor t f
  | .catchAll n :: t, f => t = [] ∧ ∃ vs, f n = .multi vs ∧ vs ≠ []

/-- The output segments contributed by one template segment under a
parameter assignment. -/
def segOut (f : String → ParamValue) : Segment → List String
  | .literal s => [s]
  | .param n => match f n with | .single v => [v] | .multi vs => vs
  | .catchAll n => match f n with | .single v => [v] | .multi vs => vs

/-- The full compiled output of a template under a parameter assignment. -/
def outSegs (t : Template) (f : String → ParamValue) : List String :=
  (t.map (segOut f)).flatten

/-- The parameter list induced by a parameter assignment, in template
parameter order. -/
def canonicalParams (t : Template) (f : String → ParamValue) : Params :=
  (dynNames t).map fun n => (n, f n)

theorem lookupParam_map (names : List String) (f : String → ParamValue) (n : String)
    (h : n ∈ names) :
    lookupParam (names.map fun m => (m, f m)) n = some (f n) := by
  induction names with
  | nil => cases h
  | cons m rest ih =>
    simp only [List.map_cons, lookupParam]
    by_cases hm : m = n
    · subst hm; simp
    · simp only [hm, if_false]
      exact ih ((List.mem_cons.mp h).resolve_left fun hh => hm hh.symm)

theorem compileSegs_ok (t : Template) (f : String → ParamValue) (ps : Params)
    (hwf : wfFor t f)
    (hlook : ∀ n ∈ dynNames t, lookupParam ps n = some (f n)) :
    compileSegs t ps = .ok (outSegs t f) := by
  induction t with
  | nil => simp [compileSegs, outSegs]
  | cons seg t ih =>
    cases seg with
    | literal s =>
      have := ih hwf fun n hn => hlook n (by simpa [dynNames] using hn)
      simp [compileSegs, this, exceptMap_ok, outSegs, segOut]
    | param n =>
      obtain ⟨⟨v, hv⟩, hwf2⟩ := hwf
      have hl : lookupParam ps n = some (f n) := hlook n (by simp [dynNames])
      have := ih hwf2 fun m hm => hlook m (by simp [dynNames, hm])
      simp [compileSegs, hl, hv, this, exceptMap_ok, outSegs, segOut]
    | catchAll n =>
      obtain ⟨ht, vs, hv, hvs⟩ := hwf
      subst ht
      have hl : lookupParam ps n = some (f n) := hlook n (by simp [dynNames])
      simp [compileSegs, hl, hv, exceptMap_ok, outSegs, segOut]

theorem matchSegs_literal (s : String) (t : Template) (x : String) (xs : List String) :
    matchSegs (.literal s :: t) (x :: xs) = if x = s then matchSegs t xs else none := by
  simp [matchSegs]

theorem matchSegs_param (n : String) (t : Template) (x : String) (xs : List String) :
    matchSegs (.param n :: t) (x :: xs) =
      (matchSegs t xs).map fun ps => (n, .single x) :: ps := by
  simp [matchSegs]

theorem matchSegs_out (t : Template) (f : String → ParamValue)
    (hwf : wfFor t f) :
    matchSegs t (outSegs t f) = some (canonicalParams t f) := by
  induction t with
  | nil => simp [outSegs, matchSegs, canonicalParams, dynNames]
  | cons seg t ih =>
    cases seg with
    | literal s =>
      have houts : outSegs (Segment.literal s :: t) f = s :: outSegs t f := by
        simp [outSegs, segOut]
      have hcan : canonicalParams (Segment.literal s :: t) f = canonicalParams t f := by
        simp [canonicalParams, dynNames]
      rw [houts, matchSegs_literal, if_pos rfl, ih hwf, hcan]
    | param n =>
      obtain ⟨⟨v, hv⟩, hwf2⟩ := hwf
      have houts : outSegs (Segment.param n :: t) f = v :: outSegs t f := by
        simp [outSegs, segOut, hv]
      have hcan : canonicalParams (Segment.param n :: t) f =
          (n, f n) :: canonicalParams t f := by
        simp [canonicalParams, dynNames]
      rw [houts, matchSegs_param, ih hwf2, hcan, hv]
      rfl
    | catchAll n =>
      obtain ⟨ht, vs, hv, hvs⟩ := hwf
      subst ht
      have houts : outSegs [Segment.catchAll n] f = vs := by
        simp [outSegs, segOut, hv]
      rw [houts]
      simp [matchSegs, hvs, canonicalParams, dynNames, hv]

theorem pickBest_const (locale : String) (x : PathnameEntry × Params)
    (l : List (PathnameEntry × Params)) (h : ∀ y ∈ l, y = x) :
    pickBest locale x l = x := by
  induction l with
  | nil => rfl
  | cons c cs ih =>
    have hc : c = x := h c (List.mem_cons_self c cs)
    subst hc
    simp only [pickBest, ite_self]
    exact ih fun y hy => h y (List.mem_cons_of_mem c hy)

theorem matchTemplateSegs_unique (pathnames : List PathnameEntry) (locale : String)
    (out : List String) (e : PathnameEntry) (prms : Params)
    (he : e ∈ pathnames)
    (hme : matchSegs (localizedTemplate e locale) out = some prms)
    (hothers : ∀ e2 ∈ pathnames, e2 ≠ e →
      matchSegs (localizedTemplate e2 locale) out = none) :
    matchTemplateSegs pathnames locale out = some (e.canonical, prms) := by
  have hall : ∀ y ∈ pathnames.filterMap
      (fun e2 => (matchSegs (localizedTemplate e2 locale) out).map fun ps => (e2, ps)),
      y = (e, prms) := by
    intro y hy
    obtain ⟨a, ha, hga⟩ := List.mem_filterMap.mp hy
    by_cases hae : a = e
    · subst hae
      rw [hme] at hga
      simpa using hga.symm
    · rw [hothers a ha hae] at hga
      cases hga
  have hmem : (e, prms) ∈ pathnames.filterMap
      (fun e2 => (matchSegs (localizedTemplate e2 locale) out).map fun ps => (e2, ps)) :=
    List.mem_filterMap.mpr ⟨e, he, by rw [hme]; rfl⟩
  unfold matchTemplateSegs
  cases hfm : pathnames.filterMap
      (fun e2 => (matchSegs (localizedTemplate e2 locale) out).map fun ps => (e2, ps)) with
  | nil => rw [hfm] at hmem; cases hmem
  | cons m ms =>
    rw [hfm] at hall hmem
    have hm : m = (e, prms) := hall m (List.mem_cons_self m ms)
    subst hm
    show some ((pickBest locale (e, prms) ms).1.canonical,
      (pickBest locale (e, prms) ms).2) = some (e.canonical, prms)
    rw [pickBest_const locale (e, prms) ms fun y hy => hall y (List.mem_cons_of_mem _ hy)]

/-- C3 (amended): the compile/match round trip is the identity on
`(template, params)` provided no other configured template also matches the
compiled pathname — compiling a configured template for a locale with a
well-formed parameter assignment and matching the result back yields exactly
the original canonical template and parameter list. -/
theorem c3_round_trip (pathnames : List PathnameEntry) (locale : String)
    (e : PathnameEntry) (f : String → ParamValue)
    (he : e ∈ pathnames)
    (hwf : wfFor (localizedTemplate e locale) f)
    (hun : ∀ e2 ∈ pathnames, e2 ≠ e →
      matchSegs (localizedTemplate e2 locale) (outSegs (localizedTemplate e locale) f) = none) :
    compileSegs (localizedTemplate e locale)
        (canonicalParams (localizedTemplate e locale) f) =
      .ok (outSegs (localizedTemplate e locale) f) ∧
    matchTemplateSegs pathnames locale (outSegs (localizedTemplate e locale) f) =
      some (e.canonical, canonicalParams (localizedTemplate e locale) f) := by
  constructor
  · refine compileSegs_ok _ f _ hwf fun n hn => ?_
    exact lookupParam_map (dynNames (localizedTemplate e locale)) f n hn
  · exact matchTemplateSegs_unique pathnames locale _ e _ he
      (matchSegs_out _ f hwf) hun

/-- Witness for `c3_round_trip` at a concrete template with one named
parameter. -/
theorem c3_round_trip_witness :
    compileSegs (localizedTemplate ⟨[.literal "news", .param "articleId"], []⟩ "en")
        (canonicalParams
          (localizedTemplate ⟨[.literal "news", .param "articleId"], []⟩ "en")
          fun _ => .single "42") =
      .ok ["news", "42"] ∧
    matchTemplateSegs [⟨[.literal "news", .param "articleId"], []⟩] "en" ["news", "42"] =
      some ([.literal "news", .param "articleId"],
        [("articleId", .single "42")]) := by
  have h := c3_round_trip [⟨[.literal "news", .param "articleId"], []⟩] "en"
    ⟨[.literal "news", .param "articleId"], []⟩ (fun _ => .single "42")
    (by decide)
    (by exact ⟨⟨"42", rfl⟩, trivial⟩)
    (by
      intro e2 h2 hne
      simp only [List.mem_singleton] at h2
      exact absurd h2 hne)
  simpa [localizedTemplate, lookupTemplate, outSegs, segOut, canonicalParams,
    dynNames] using h

/-- Counterexample for C3 as stated: with the configured templates
`/news/just-in` (static) and `/news/[articleId]` (dynamic), compiling the
dynamic template with `articleId = just-in` and matching the result back
yields the static template with no parameters — not the original
`(template, params)` pair — because static entries take precedence over a
dynamic template matching the same pathname. -/
theorem c3_round_trip_counterexample :
    compileSegs [.literal "news", .param "articleId"]
        [("articleId", .single "just-in")] = .ok ["news", "just-in"] ∧
    matchTemplateSegs
        [⟨[.literal "news", .literal "just-in"], []⟩,
          ⟨[.literal "news", .param "articleId"], []⟩] "en" ["news", "just-in"] =
      some ([.literal "news", .literal "just-in"], []) ∧
    matchTemplateSegs
        [⟨[.literal "news", .literal "just-in"], []⟩,
          ⟨[.literal "news", .param "articleId"], []⟩] "en" ["news", "just-in"] ≠
      some ([.literal "news", .param "articleId"],
        [("articleId", .single "just-in")]) := by
  refine ⟨by decide, ?_, ?_⟩ <;> decide

/-! ## C1: configuration validation at setup time -/

theorem containsMem (l : List String) (a : String) : l.contains a = true ↔ a ∈ l := by
  simp

instance configValidDecidable (cfg : RoutingConfig) : Decidable (ConfigValid cfg) := by
  unfold ConfigValid
  exact inferInstance

theorem validateReceivedConfig_ok_iff (cfg : RoutingConfig) :
    validateReceivedConfig cfg = .ok () ↔ ConfigValid cfg := by
  unfold validateReceivedConfig
  split_ifs with h1 h2 h3 h4 h5 h6 h7 h8 <;>
    constructor <;>
    intro hx <;>
    simp_all [ConfigValid, List.all_eq_true, containsMem] <;>
    first
      | exact fun d hd l hl => h7 d hd l hl
      | (obtain ⟨x, hxm, hxf⟩ := h8; exact absurd (hx.2 x hxm) (by simp [hxf]))
      | (obtain ⟨x, hxm, y, hym, hyf⟩ := h7; exact hyf (hx.1 x hxm y hym))
      | (obtain ⟨x, hxm, hxf⟩ := h6; exact hxf (hx.1 x hxm))

/-- C1 (amended): when `NODE_ENV` is not `production`, constructing the
navigation functions on a configuration that violates a §3 invariant raises
a descriptive configuration error synchronously at setup time.  (In
production the validation step is skipped — see the counterexample.) -/
theorem c1_validation_raises_outside_production (env : String) (input : RoutingInput)
    (henv : env ≠ "production")
    (hbad : ¬ ConfigValid (receiveRoutingConfig input)) :
    ∃ e, createSharedNavigationFnsSetup env (some input) = .error e := by
  unfold createSharedNavigationFnsSetup
  simp only [Option.getD_some, if_pos henv]
  cases hv : validateReceivedConfig (receiveRoutingConfig input) with
  | ok u =>
    cases u
    exact absurd ((validateReceivedConfig_ok_iff _).mp hv) hbad
  | error e => exact ⟨e, rfl⟩

/-- Witness for `c1_validation_raises_outside_production`: in a
non-production environment, a configuration whose default locale is not
among its locales is rejected at setup time. -/
theorem c1_validation_raises_outside_production_witness :
    ("test" ≠ "production" ∧
      ¬ ConfigValid (receiveRoutingConfig ⟨["en"], "de", none, none, [], none, none, none⟩)) ∧
    ∃ e, createSharedNavigationFnsSetup "test"
        (some ⟨["en"], "de", none, none, [], none, none, none⟩) = .error e :=
  ⟨⟨by decide, by decide⟩,
    c1_validation_raises_outside_production "test"
      ⟨["en"], "de", none, none, [], none, none, none⟩ (by decide) (by decide)⟩

/-- Counterexample for C1 as stated: the very same invariant-violating
configuration (default locale `de` not among the locales `[en]`) does not
raise any error when `NODE_ENV` is `production` — construction succeeds and
requests would be served with the invalid configuration, so validation is
not unconditional. -/
theorem c1_production_skips_validation_counterexample :
    ¬ ConfigValid (receiveRoutingConfig ⟨["en"], "de", none, none, [], none, none, none⟩) ∧
    createSharedNavigationFnsSetup "production"
        (some ⟨["en"], "de", none, none, [], none, none, none⟩) =
      .ok (receiveRoutingConfig ⟨["en"], "de", none, none, [], none, none, none⟩) := by
  constructor
  · decide
  · rfl

/-! ## C5: superfluous default-locale prefix under as-needed -/

/-- C5: under `as-needed` mode (without domains), a request whose pathname
explicitly carries the default locale's own prefix resolves to the default
locale and is redirected to the unprefixed canonical path, with the cookie
updated first whenever the negotiated locale changed. -/
theorem c5_superfluous_default_prefix_redirects (cfg : RoutingConfig) (req : NegRequest)
    (rest : List String)
    (hm : cfg.localePrefix.mode = PrefixMode.asNeeded)
    (hd : cfg.domains = none)
    (hseg : req.segments = localePrefixSeg cfg cfg.defaultLocale :: rest)
    (hfind : cfg.locales.find?
        (fun l => localePrefixSeg cfg l = localePrefixSeg cfg cfg.defaultLocale) =
      some cfg.defaultLocale) :
    (negotiate cfg req).action = NegAction.redirect (renderPath rest) ∧
    (negotiate cfg req).locale = cfg.defaultLocale ∧
    (cfg.localeCookie = true → req.cookie ≠ some cfg.defaultLocale →
      (negotiate cfg req).setCookie = some cfg.defaultLocale) := by
  have hdom : negDomain cfg req = none := by
    cases hh : req.host <;> simp [negDomain, matchDomain, hd, hh]
  have hcand : negCandidates cfg req = cfg.locales := by
    simp [negCandidates, hdom]
  have hdef : negDefault cfg req = cfg.defaultLocale := by
    simp [negDefault, hdom]
  have hmem : cfg.defaultLocale ∈ cfg.locales := List.mem_of_find?_eq_some hfind
  have hpi : negPathInfo cfg req = some (cfg.defaultLocale, rest) := by
    simp [negPathInfo, hm, pathLocale, hseg, hfind]
  have hloc : resolvedLocale cfg req = cfg.defaultLocale := by
    simp [resolvedLocale, hpi, hcand, hmem]
  refine ⟨?_, hloc, fun hck hne => ?_⟩
  · show negActionOf cfg req = _
    simp [negActionOf, hm, hpi, hdef]
  · show (if cfg.localeCookie ∧ req.cookie ≠ some (resolvedLocale cfg req) then
        some (resolvedLocale cfg req) else none) = some cfg.defaultLocale
    rw [hloc]
    simp [hck, hne]

/-- Witness for `c5_superfluous_default_prefix_redirects`: `/en/about` with
default locale `en` redirects to `/about` and writes the cookie. -/
theorem c5_superfluous_default_prefix_redirects_witness :
    (negotiate ⟨["en", "de"], "en", ⟨.asNeeded, []⟩, none, [], true, true, true⟩
        ⟨["en", "about"], none, none, []⟩).action =
      NegAction.redirect (renderPath ["about"]) ∧
    (negotiate ⟨["en", "de"], "en", ⟨.asNeeded, []⟩, none, [], true, true, true⟩
        ⟨["en", "about"], none, none, []⟩).locale = "en" ∧
    (negotiate ⟨["en", "de"], "en", ⟨.asNeeded, []⟩, none, [], true, true, true⟩
        ⟨["en", "about"], none, none, []⟩).setCookie = some "en" := by
  have h := c5_superfluous_default_prefix_redirects
    ⟨["en", "de"], "en", ⟨.asNeeded, []⟩, none, [], true, true, true⟩
    ⟨["en", "about"], none, none, []⟩ ["about"] rfl rfl (by decide) (by decide)
  exact ⟨h.1, h.2.1, h.2.2 rfl (by decide)⟩

/-! ## C6: cookie writes on negotiation -/

theorem negDomain_mem (cfg : RoutingConfig) (req : NegRequest) (dc : DomainConfig)
    (h : negDomain cfg req = some dc) : dc ∈ cfg.domains.getD [] := by
  unfold negDomain at h
  cases hh : req.host with
  | none => rw [hh] at h; cases h
  | some host =>
    rw [hh] at h
    exact List.mem_of_find?_eq_some h

theorem negCandidates_subset (cfg : RoutingConfig) (req : NegRequest)
    (hdomsub : ∀ d ∈ cfg.domains.getD [], ∀ l ∈ d.locales, l ∈ cfg.locales) :
    ∀ l ∈ negCandidates cfg req, l ∈ cfg.locales := by
  intro l hl
  unfold negCandidates at hl
  cases hnd : negDomain cfg req with
  | none => rw [hnd] at hl; exact hl
  | some dc =>
    rw [hnd] at hl
    exact hdomsub dc (negDomain_mem cfg req dc hnd) l hl

theorem negDefault_mem (cfg : RoutingConfig) (req : NegRequest)
    (hdefault : cfg.defaultLocale ∈ cfg.locales)
    (hdomdef : ∀ d ∈ cfg.domains.getD [], d.defaultLocale ∈ cfg.locales) :
    negDefault cfg req ∈ cfg.locales := by
  unfold negDefault
  cases hnd : negDomain cfg req with
  | none => simpa using hdefault
  | some dc => simpa using hdomdef dc (negDomain_mem cfg req dc hnd)

theorem resolvedLocale_mem (cfg : RoutingConfig) (req : NegRequest)
    (hdefault : cfg.defaultLocale ∈ cfg.locales)
    (hdomdef : ∀ d ∈ cfg.domains.getD [], d.defaultLocale ∈ cfg.locales)
    (hdomsub : ∀ d ∈ cfg.domains.getD [], ∀ l ∈ d.locales, l ∈ cfg.locales) :
    resolvedLocale cfg req ∈ cfg.locales := by
  have hsub := negCandidates_subset cfg req hdomsub
  unfold resolvedLocale
  cases hp : (negPathInfo cfg req).bind (fun li =>
      if li.1 ∈ negCandidates cfg req then some li.1 else none) with
  | some l =>
    simp only [hp, Option.getD_some]
    obtain ⟨li, hli, hif⟩ := Option.bind_eq_some.mp hp
    by_cases hm : li.1 ∈ negCandidates cfg req
    · rw [if_pos hm] at hif
      cases hif
      exact hsub _ hm
    · rw [if_neg hm] at hif
      cases hif
  | none =>
    simp only [hp, Option.getD_none]
    cases hc : (if cfg.localeDetection then
        req.cookie.bind fun c => if c ∈ negCandidates cfg req then some c else none
      else none) with
    | some c =>
      simp only [hc, Option.getD_some]
      by_cases hdet : cfg.localeDetection
      · rw [if_pos hdet] at hc
        obtain ⟨v, hv, hif⟩ := Option.bind_eq_some.mp hc
        by_cases hm : v ∈ negCandidates cfg req
        · rw [if_pos hm] at hif
          cases hif
          exact hsub _ hm
        · rw [if_neg hm] at hif
          cases hif
      · rw [if_neg hdet] at hc
        cases hc
    | none =>
      simp only [hc, Option.getD_none]
      cases hh : (if cfg.localeDetection then
          req.acceptLanguage.find? (fun l => l ∈ negCandidates cfg req)
        else none) with
      | some c =>
        simp only [hh, Option.getD_some]
        by_cases hdet : cfg.localeDetection
        · rw [if_pos hdet] at hh
          have := List.find?_some hh
          exact hsub _ (of_decide_eq_true this)
        · rw [if_neg hdet] at hh
          cases hh
      | none =>
        simp only [hh, Option.getD_none]
        exact negDefault_mem cfg req hdefault hdomdef

/-- C6: on a `Pass` outcome (for a well-formed configuration with the
cookie enabled), a cookie write is emitted if and only if the existing
cookie does not already hold the resolved locale — in particular when the
cookie value is stale (no longer a supported locale); a matching fresh
cookie yields no write, and a write is produced whenever the locale actually
changed. -/
theorem c6_pass_cookie_write_iff (cfg : RoutingConfig) (req : NegRequest)
    (hdefault : cfg.defaultLocale ∈ cfg.locales)
    (hdomdef : ∀ d ∈ cfg.domains.getD [], d.defaultLocale ∈ cfg.locales)
    (hdomsub : ∀ d ∈ cfg.domains.getD [], ∀ l ∈ d.locales, l ∈ cfg.locales)
    (hcookie : cfg.localeCookie = true)
    (hpass : (negotiate cfg req).action = NegAction.pass) :
    ((negotiate cfg req).setCookie.isSome = true ↔
      (req.cookie ≠ some ((negotiate cfg req).locale) ∨
        ∃ v, req.cookie = some v ∧ v ∉ cfg.locales)) ∧
    (req.cookie = some ((negotiate cfg req).locale) →
      (negotiate cfg req).setCookie = none) ∧
    (∀ v, req.cookie = some v → v ≠ (negotiate cfg req).locale →
      (negotiate cfg req).setCookie = some ((negotiate cfg req).locale)) := by
  have hmeml := resolvedLocale_mem cfg req hdefault hdomdef hdomsub
  have hlocale : (negotiate cfg req).locale = resolvedLocale cfg req := rfl
  have hsetc : (negotiate cfg req).setCookie =
      if cfg.localeCookie ∧ req.cookie ≠ some (resolvedLocale cfg req) then
        some (resolvedLocale cfg req)
      else none := rfl
  rw [hlocale, hsetc, hcookie]
  refine ⟨?_, fun h => ?_, fun v hv hne => ?_⟩
  · by_cases hck : req.cookie = some (resolvedLocale cfg req)
    · simp only [hck, ne_eq, not_true_eq_false, and_false, if_false,
        Option.isSome_none, Bool.false_eq_true, false_iff, not_or, not_not,
        not_exists, not_and]
      exact ⟨not_false, fun v hvv => by
        rw [Option.some_inj] at hvv
        exact hvv ▸ hmeml⟩
    · simp [hck]
  · simp [h]
  · have hck : req.cookie ≠ some (resolvedLocale cfg req) := by
      rw [hv]
      intro hcon
      exact hne (Option.some_inj.mp hcon)
    simp [hck]

/-- Witness for `c6_pass_cookie_write_iff`: `/de/about` with an existing
`en` cookie passes through and rewrites the cookie to `de`. -/
theorem c6_pass_cookie_write_iff_witness :
    ((negotiate ⟨["en", "de"], "en", ⟨.asNeeded, []⟩, none, [], true, true, true⟩
          ⟨["de", "about"], none, some "en", []⟩).setCookie.isSome = true ↔
      ((⟨["de", "about"], none, some "en", []⟩ : NegRequest).cookie ≠
          some ((negotiate ⟨["en", "de"], "en", ⟨.asNeeded, []⟩, none, [], true, true, true⟩
            ⟨["de", "about"], none, some "en", []⟩).locale) ∨
        ∃ v, (⟨["de", "about"], none, some "en", []⟩ : NegRequest).cookie = some v ∧
          v ∉ (⟨["en", "de"], "en", ⟨.asNeeded, []⟩, none, [], true, true,
            true⟩ : RoutingConfig).locales)) ∧
    ((⟨["de", "about"], none, some "en", []⟩ : NegRequest).cookie =
        some ((negotiate ⟨["en", "de"], "en", ⟨.asNeeded, []⟩, none, [], true, true, true⟩
          ⟨["de", "about"], none, some "en", []⟩).locale) →
      (negotiate ⟨["en", "de"], "en", ⟨.asNeeded, []⟩, none, [], true, true, true⟩
        ⟨["de", "about"], none, some "en", []⟩).setCookie = none) ∧
    (∀ v, (⟨["de", "about"], none, some "en", []⟩ : NegRequest).cookie = some v →
      v ≠ (negotiate ⟨["en", "de"], "en", ⟨.asNeeded, []⟩, none, [], true, true, true⟩
        ⟨["de", "about"], none, some "en", []⟩).locale →
      (negotiate ⟨["en", "de"], "en", ⟨.asNeeded, []⟩, none, [], true, true, true⟩
          ⟨["de", "about"], none, some "en", []⟩).setCookie =
        some ((negotiate ⟨["en", "de"], "en", ⟨.asNeeded, []⟩, none, [], true, true, true⟩
          ⟨["de", "about"], none, some "en", []⟩).locale)) :=
  c6_pass_cookie_write_iff
    ⟨["en", "de"], "en", ⟨.asNeeded, []⟩, none, [], true, true, true⟩
    ⟨["de", "about"], none, some "en", []⟩
    (by decide) (by simp) (by simp) rfl (by decide)

/-! ## C7: alternate links and x-default -/

/-- C7: alternate links are disabled automatically by the config resolver
when the prefix mode is `never`, no alternate links are emitted at all under
`never` mode, and under `always` mode an `x-default` entry appears exactly
for the site root (assuming no locale is itself named `x-default`). -/
theorem c7_alternate_links (input : RoutingInput) (cfg : RoutingConfig) (p : String)
    (hx : "x-default" ∉ cfg.locales) :
    ((receiveRoutingConfig input).localePrefix.mode = PrefixMode.never →
      (receiveRoutingConfig input).alternateLinks = false) ∧
    (cfg.localePrefix.mode = PrefixMode.never → getAlternateLinks cfg p = []) ∧
    (cfg.localePrefix.mode = PrefixMode.always → cfg.alternateLinks = true →
      ((∃ e ∈ getAlternateLinks cfg p, e.hreflang = "x-default") ↔ p = "/")) := by
  refine ⟨fun hm => ?_, fun hm => ?_, fun hm ha => ?_⟩
  · simp only [receiveRoutingConfig] at hm ⊢
    simp [hm]
  · simp [getAlternateLinks, hm]
  · have hguard : ¬(cfg.localePrefix.mode = PrefixMode.never ∨ cfg.alternateLinks = false) := by
      simp [hm, ha]
    constructor
    · rintro ⟨e, he, hel⟩
      rw [getAlternateLinks, if_neg hguard, hm] at he
      rcases List.mem_append.mp he with hmap | hif
      · obtain ⟨l, hl, hle⟩ := List.mem_map.mp hmap
        rw [← hle] at hel
        exact absurd (hel ▸ hl) hx
      · by_cases hp : p = "/"
        · exact hp
        · rw [if_neg hp] at hif
          cases hif
    · intro hp
      refine ⟨⟨"x-default", p⟩, ?_, rfl⟩
      rw [getAlternateLinks, if_neg hguard, hm]
      exact List.mem_append.mpr (Or.inr (by rw [if_pos hp]; exact List.mem_singleton_self _))

/-- Witness for `c7_alternate_links`: under `always` mode the root emits an
x-default entry while `/about` does not, and a `never`-mode resolver run
disables alternate links. -/
theorem c7_alternate_links_witness :
    ((receiveRoutingConfig ⟨["en", "de"], "en", some ⟨.never, []⟩, none, [], none,
        none, none⟩).localePrefix.mode = PrefixMode.never →
      (receiveRoutingConfig ⟨["en", "de"], "en", some ⟨.never, []⟩, none, [], none,
        none, none⟩).alternateLinks = false) ∧
    ((∃ e ∈ getAlternateLinks
        ⟨["en", "de"], "en", ⟨.always, []⟩, none, [], true, true, true⟩ "/",
        e.hreflang = "x-default") ↔ ("/" : String) = "/") ∧
    ((∃ e ∈ getAlternateLinks
        ⟨["en", "de"], "en", ⟨.always, []⟩, none, [], true, true, true⟩ "/about",
        e.hreflang = "x-default") ↔ ("/about" : String) = "/") := by
  refine ⟨?_, ?_, ?_⟩
  · exact (c7_alternate_links
      ⟨["en", "de"], "en", some ⟨.never, []⟩, none, [], none, none, none⟩
      ⟨["en", "de"], "en", ⟨.always, []⟩, none, [], true, true, true⟩ "/"
      (by decide)).1
  · exact (c7_alternate_links
      ⟨["en", "de"], "en", some ⟨.never, []⟩, none, [], none, none, none⟩
      ⟨["en", "de"], "en", ⟨.always, []⟩, none, [], true, true, true⟩ "/"
      (by decide)).2.2 rfl rfl
  · exact (c7_alternate_links
      ⟨["en", "de"], "en", some ⟨.never, []⟩, none, [], none, none, none⟩
      ⟨["en", "de"], "en", ⟨.always, []⟩, none, [], true, true, true⟩ "/about"
      (by decide)).2.2 rfl rfl
